import Mathlib

/-!
Verification of the fftradewizard backend core logic
(`backend/app/services.py`, `backend/app/models.py`,
`backend/app/schemas.py`) against its natural-language specification.

Modelling conventions:
* Python floats are modelled as rationals (`ℚ`); all arithmetic in the
  relevant code paths is exact decimal arithmetic, so `ℚ` is faithful.
* Python ints are `ℤ`, strings are `String`, `None`-able values are `Option`.
* `round(x, 2)` is modelled as round-half-to-even at two decimals
  (Python's documented rounding mode), implemented on `ℚ`.
* Network fetches (`_fetch_espn_players_raw`, `_fetch_team_matchups`) are
  modelled as parameters: the raw payload (`Option (List RawRecord)`,
  `none` = request failed / non-list payload) and the matchup map.
-/

/-- Floor of a rational, via floored integer division of numerator by
denominator. -/
def qfloor (x : ℚ) : ℤ := Int.fdiv x.num (x.den : ℤ)

/-- Round a rational to the nearest integer, ties going to the even
integer (Python's rounding mode for `round`). -/
def rnd_half_even (x : ℚ) : ℤ :=
  let f : ℤ := qfloor x
  let r : ℚ := x - (f : ℚ)
  if r < 1/2 then f
  else if (1 : ℚ)/2 < r then f + 1
  else if f % 2 = 0 then f else f + 1

/-- Model of Python's `round(x, 2)`. -/
def round2 (x : ℚ) : ℚ := ((rnd_half_even (100 * x) : ℤ) : ℚ) / 100

/-- Embedding of `schemas.Player`: the canonical player record. -/
structure Player where
  id : String
  name : String
  team : String
  position : String
  fppg : ℚ := 0.0
  usage : ℚ := 0.0
  sos : ℚ := 0.5
  remaining_games : ℤ := 0
  season_points : ℚ := 0.0
  projected_season : ℚ := 0.0
  week_projection : ℚ := 0.0
  matchup : Option String := none
deriving DecidableEq, Repr

/-- Embedding of `schemas.ROSResult`. -/
structure ROSResult where
  player : Player
  ros_points : ℚ
  ros_score : ℚ
  season_points : ℚ
  week_projection : ℚ
  matchup : Option String := none
  tier : String
deriving DecidableEq, Repr

/-- Embedding of `schemas.TradeAnalysis`. -/
structure TradeAnalysis where
  team_a_total : ℚ
  team_b_total : ℚ
  delta_a : ℚ
  verdict : String
deriving DecidableEq, Repr

/-- Embedding of `models.DEFAULT_PLAYERS`: the static fallback pool. -/
def DEFAULT_PLAYERS : List Player :=
  [ { id := "p1", name := "Justin Jefferson", team := "MIN", position := "WR",
      fppg := 18.5, usage := 0.30, sos := 0.5, remaining_games := 7 },
    { id := "p2", name := "Ja\x27Marr Chase", team := "CIN", position := "WR",
      fppg := 17.3, usage := 0.28, sos := 0.55, remaining_games := 7 },
    { id := "p3", name := "Christian McCaffrey", team := "SF", position := "RB",
      fppg := 21.7, usage := 0.40, sos := 0.45, remaining_games := 7 } ]

/-- Embedding of `services.USAGE_WEIGHT`. -/
def USAGE_WEIGHT : ℚ := 0.20

/-- Embedding of `services.SOS_WEIGHT`. -/
def SOS_WEIGHT : ℚ := 0.15

/-- Embedding of `services.compute_matchup_factor`. -/
def compute_matchup_factor (p : Player) : ℚ :=
  1 + SOS_WEIGHT * (0.5 - p.sos)

/-- Embedding of `services.calculate_ros_score`. -/
def calculate_ros_score (p : Player) : ℚ :=
  let base_ros : ℚ :=
    if 0 < p.projected_season ∧ 0 < p.season_points then
      p.season_points + max (p.projected_season - p.season_points) 0
    else if 0 < p.projected_season then
      p.projected_season
    else
      p.fppg * ((max p.remaining_games 0 : ℤ) : ℚ)
  let usage_factor : ℚ := 1 + USAGE_WEIGHT * (p.usage - 0.5)
  round2 (base_ros * usage_factor * compute_matchup_factor p)

/-- Embedding of `services.tier_for_rank`. -/
def tier_for_rank (index total : ℤ) : String :=
  if total ≤ 0 then "D"
  else
    let percentile : ℚ := ((index : ℚ) + 1) / (total : ℚ)
    if percentile ≤ 0.10 then "S"
    else if percentile ≤ 0.30 then "A"
    else if percentile ≤ 0.60 then "B"
    else if percentile ≤ 0.85 then "C"
    else "D"

/-- Embedding of `services.get_players_by_position`, explicit in the pool.  A `none`
or empty or `"ALL"` filter (Python falsiness of `position`) returns the
whole pool. -/
def get_players_by_position (pool : List Player) (position : Option String) :
    List Player :=
  match position with
  | none => pool
  | some pos =>
      if pos = "" ∨ pos.toUpper = "ALL" then pool
      else pool.filter (fun p => p.position.toUpper = pos.toUpper)

/-- The per-player `ROSResult` built in the loop of
`services.get_ros_rankings` (before tier assignment). -/
def to_ros_result (p : Player) : ROSResult :=
  { player := p,
    ros_points := calculate_ros_score p,
    ros_score := calculate_ros_score p,
    season_points := p.season_points,
    week_projection := p.week_projection,
    matchup := p.matchup,
    tier := "" }

/-- The comparison used by `results.sort(key=lambda r: r.ros_score,
reverse=True)`: a stable descending sort on `ros_score`. -/
def ros_le (a b : ROSResult) : Bool := decide (b.ros_score ≤ a.ros_score)

/-- The tier-assignment pass of `services.get_ros_rankings`
(`for idx, r in enumerate(results): r.tier = tier_for_rank(idx, total)`). -/
def assign_tiers (l : List ROSResult) : List ROSResult :=
  l.enum.map (fun x => { x.2 with tier := tier_for_rank (x.1 : ℤ) (l.length : ℤ) })

/-- Embedding of `services.get_ros_rankings`, explicit in the pool. -/
def get_ros_rankings (pool : List Player) (position : Option String) :
    List ROSResult :=
  let players := get_players_by_position pool position
  let results := players.map to_ros_result
  let sorted := List.mergeSort results ros_le
  assign_tiers sorted

/-- Lookup in the dict built by `services._build_player_index`
(`{p.id: p for p in PLAYER_POOL}`): a later entry with the same id
overwrites an earlier one, so lookup finds the last match. -/
def index_lookup (pool : List Player) (i : String) : Option Player :=
  pool.reverse.find? (fun p => p.id = i)

/-- The per-side `total` closure inside `services.analyze_trade`:
sum of scores of the ids resolved by the index, rounded to 2 decimals. -/
def trade_side_total (pool : List Player) (ids : List String) : ℚ :=
  round2 (((ids.filterMap (index_lookup pool)).map calculate_ros_score).sum)

/-- Embedding of `services.analyze_trade`, explicit in the pool. -/
def analyze_trade (pool : List Player) (team_a_ids team_b_ids : List String) :
    TradeAnalysis :=
  let team_a_total := trade_side_total pool team_a_ids
  let team_b_total := trade_side_total pool team_b_ids
  let delta_a := round2 (team_b_total - team_a_total)
  let verdict :=
    if |delta_a| < 5 then "Very even trade"
    else if 0 < delta_a then "Good for Team A"
    else "Good for Team B"
  { team_a_total := team_a_total, team_b_total := team_b_total,
    delta_a := delta_a, verdict := verdict }

/-- Follows the claim's (C1) wording for the valuation base: banked points
plus non-negative remaining upside when both season figures are positive,
else the season projection, else `fppg` times the remaining games. -/
def spec_base (p : Player) : ℚ :=
  if 0 < p.season_points ∧ 0 < p.projected_season then
    p.season_points + max (p.projected_season - p.season_points) 0
  else if 0 < p.projected_season then
    p.projected_season
  else
    p.fppg * ((max p.remaining_games 0 : ℤ) : ℚ)

/-- Follows the claim's (C6) wording for the tiering function: lowest label
for a non-positive total, otherwise percentile buckets on `(index+1)/total`. -/
def tier_spec (index total : ℤ) : String :=
  if total ≤ 0 then "D"
  else if ((index : ℚ) + 1) / (total : ℚ) ≤ 0.10 then "S"
  else if ((index : ℚ) + 1) / (total : ℚ) ≤ 0.30 then "A"
  else if ((index : ℚ) + 1) / (total : ℚ) ≤ 0.60 then "B"
  else if ((index : ℚ) + 1) / (total : ℚ) ≤ 0.85 then "C"
  else "D"

/-- Embedding of `services.TEAM_MAP`: NFL proTeamId to abbreviation. -/
def TEAM_MAP : List (ℤ × String) :=
  [(1, "ATL"), (2, "BUF"), (3, "CHI"), (4, "CIN"), (5, "CLE"), (6, "DAL"),
   (7, "DEN"), (8, "DET"), (9, "GB"), (10, "TEN"), (11, "IND"), (12, "KC"),
   (13, "LV"), (14, "LAR"), (15, "MIAMI"), (16, "MIN"), (17, "NE"), (18, "NO"),
   (19, "NYG"), (20, "NYJ"), (21, "PHI"), (22, "ARI"), (23, "PIT"), (24, "LAC"),
   (25, "SF"), (26, "SEA"), (27, "TB"), (28, "WSH"), (29, "CAR"), (30, "JAX"),
   (33, "BAL"), (34, "HOU")]

/-- Lookup `TEAM_MAP.get(i)`. -/
def team_map_get (i : ℤ) : Option String :=
  (TEAM_MAP.find? (fun x => x.1 = i)).map Prod.snd

/-- The `position_map.get(default_pos_id, "FLEX")` lookup inside
`services._extract_basic_info`. -/
def position_map_get (i : ℤ) : String :=
  if i = 1 then "QB"
  else if i = 2 then "RB"
  else if i = 3 then "WR"
  else if i = 4 then "TE"
  else if i = 5 then "K"
  else if i = 16 then "D/ST"
  else "FLEX"

/-- The fields of an ESPN raw payload's nested `player` object that
`services._extract_basic_info` reads.  `none` models an absent key or a
value of an unexpected type (the `isinstance` guards). -/
structure PlayerInfo where
  fullName : Option String := none
  name : Option String := none
  id : Option ℤ := none
  defaultPositionId : Option ℤ := none
  proTeamId : Option ℤ := none
deriving DecidableEq, Repr

/-- The `ownership` object of an ESPN raw payload. -/
structure Ownership where
  percentOwned : Option ℚ := none
  percentStarted : Option ℚ := none
deriving DecidableEq, Repr

/-- One entry of the `stats` list of an ESPN raw payload. -/
structure StatEntry where
  statSourceId : Option ℤ := none
  statSplitTypeId : Option ℤ := none
  scoringPeriodId : Option ℤ := none
  appliedTotal : ℚ := 0.0
deriving DecidableEq, Repr

/-- One raw player record of the ESPN payload: possibly nested under a
`player` key, with the same basic fields also possible at top level. -/
structure RawRecord where
  player : Option PlayerInfo := none
  fullName : Option String := none
  name : Option String := none
  id : Option ℤ := none
  defaultPositionId : Option ℤ := none
  proTeamId : Option ℤ := none
  ownership : Option Ownership := none
  stats : Option (List StatEntry) := none
deriving DecidableEq, Repr

/-- Model of `player_info = raw.get("player") or raw` in
`services._extract_basic_info`. -/
def infoOf (raw : RawRecord) : PlayerInfo :=
  match raw.player with
  | some pInfo => pInfo
  | none =>
      { fullName := raw.fullName, name := raw.name, id := raw.id,
        defaultPositionId := raw.defaultPositionId, proTeamId := raw.proTeamId }

/-- Python's `a or b` on optional strings (`""` and `None` are falsy). -/
def pyStrOr (a b : Option String) : Option String :=
  match a with
  | some s => if s = "" then b else some s
  | none => b

/-- Python truthiness of an optional int (`None` and `0` are falsy). -/
def truthyInt (o : Option ℤ) : Option ℤ :=
  match o with
  | some n => if n = 0 then none else some n
  | none => none

/-- Python's `str()` on an int (decimal digits, `-` sign for negatives),
matching Lean's `ToString Int`. -/
def int_str : ℤ → String
  | Int.ofNat m => Nat.repr m
  | Int.negSucc m => "-" ++ Nat.repr (m + 1)

/-- Embedding of `services._extract_basic_info`. -/
def extract_basic_info (raw : RawRecord) : Option Player :=
  let pInfo := infoOf raw
  match pyStrOr pInfo.fullName pInfo.name with
  | none => none
  | some fn =>
      if fn = "" then none
      else
        let espn_id : String :=
          match truthyInt raw.id with
          | some n => int_str n
          | none =>
              match truthyInt pInfo.id with
              | some n => int_str n
              | none => fn
        let pos : String :=
          match pInfo.defaultPositionId with
          | some i => position_map_get i
          | none => "FLEX"
        let team : String :=
          match pInfo.proTeamId with
          | some i => (team_map_get i).getD "FA"
          | none => "FA"
        let ow : Ownership := raw.ownership.getD {}
        let fppg : ℚ :=
          match ow.percentOwned with
          | some po => po / 10
          | none => 0.0
        let usage : ℚ :=
          match ow.percentStarted with
          | some ps => ps / 100
          | none => 0.5
        some { id := espn_id, name := fn, team := team, position := pos,
               fppg := round2 fppg, usage := usage, sos := 0.5,
               remaining_games := 8 }

/-- Embedding of `services._extract_fantasy_totals`, returning the triple
`(season_points, projected_season, week_projection)`. -/
def extract_fantasy_totals (raw : RawRecord) (current_week : ℤ) : ℚ × ℚ × ℚ :=
  match raw.stats with
  | none => (0.0, 0.0, 0.0)
  | some stats =>
      let acc := stats.foldl
        (fun acc s =>
          let sp := if s.statSourceId = some 0 ∧ s.statSplitTypeId = some 1
            then max acc.1 s.appliedTotal else acc.1
          let ps := if s.statSourceId = some 1 ∧ s.statSplitTypeId = some 1
            then max acc.2.1 s.appliedTotal else acc.2.1
          let wp := if s.statSourceId = some 1 ∧ s.statSplitTypeId = some 0 ∧
              s.scoringPeriodId = some current_week
            then max acc.2.2 s.appliedTotal else acc.2.2
          (sp, ps, wp))
        ((0.0 : ℚ), (0.0 : ℚ), (0.0 : ℚ))
      (round2 acc.1, round2 acc.2.1, round2 acc.2.2)

/-- Embedding of `services._load_players_from_espn`, parametrised by the fetched raw
payload (`none` = the request raised / returned a non-list payload), the
fetched matchup map, the `ESPN_MIN_PERCENT_OWNED` threshold and the
`ESPN_SCORING_PERIOD` week. -/
def load_players_from_espn (rawOpt : Option (List RawRecord))
    (matchups : String → Option String) (minOwned : ℚ) (current_week : ℤ) :
    List Player :=
  match rawOpt with
  | none => []
  | some raws =>
      raws.filterMap (fun raw =>
        match extract_basic_info raw with
        | none => none
        | some bp =>
            if bp.team = "FA" then none
            else
              let ow : Ownership := raw.ownership.getD {}
              let po : ℚ :=
                match ow.percentOwned with
                | some q => q
                | none => 0.0
              if po ≤ 0 ∨ po < minOwned then none
              else
                let t := extract_fantasy_totals raw current_week
                some { bp with season_points := (t.1),
                               projected_season := (t.2.1),
                               week_projection := (t.2.2),
                               matchup := matchups bp.team })

/-- Embedding of `services._init_player_pool`, same parameters. -/
def init_player_pool (rawOpt : Option (List RawRecord))
    (matchups : String → Option String) (minOwned : ℚ) (current_week : ℤ) :
    List Player :=
  let espn := load_players_from_espn rawOpt matchups minOwned current_week
  if espn.isEmpty then DEFAULT_PLAYERS else espn

/-- A raw ESPN record for a kicker (`defaultPositionId = 5`) on a real team
with positive ownership. -/
def kicker_raw : RawRecord :=
  { player := some { fullName := some "Test Kicker", id := some 99,
                     defaultPositionId := some 5, proTeamId := some 12 },
    id := some 99,
    ownership := some { percentOwned := some 50, percentStarted := some 60 } }

/-- The pool entry that `kicker_raw` produces. -/
def kicker_player : Player :=
  { id := "99", name := "Test Kicker", team := "KC", position := "K",
    fppg := 5, usage := 3/5, sos := 0.5, remaining_games := 8,
    season_points := 0.0, projected_season := 0.0, week_projection := 0.0,
    matchup := none }


/-- A player whose listed numeric fields are all non-negative but whose
`sos` (10) lies far outside the documented 0-1 scale. -/
def high_sos_player : Player :=
  { id := "x", name := "X", team := "T", position := "RB",
    fppg := 2, usage := 0.5, sos := 10, remaining_games := 1,
    season_points := 0.0, projected_season := 0.0, week_projection := 0.0,
    matchup := none }

section RatEvaluation

attribute [local semireducible] Rat.mul Rat.sub Rat.add Rat.inv Rat.ofScientific

lemma rnd_half_even_intCast (k : ℤ) : rnd_half_even (k : ℚ) = k := by
  have hnum : ((k : ℚ)).num = k := Rat.num_intCast k
  have hden : ((k : ℚ)).den = 1 := Rat.den_intCast k
  unfold rnd_half_even qfloor
  rw [hnum, hden]
  simp

lemma round2_zero : round2 0 = 0 := by decide

lemma round2_intCast_div_100 (k : ℤ) : round2 ((k : ℚ) / 100) = (k : ℚ) / 100 := by
  unfold round2
  have h : (100 : ℚ) * ((k : ℚ) / 100) = (k : ℚ) := by
    rw [mul_comm, div_mul_cancel₀]
    norm_num
  rw [h, rnd_half_even_intCast]

lemma round2_eq_intCast_div (x : ℚ) :
    ∃ k : ℤ, round2 x = (k : ℚ) / 100 :=
  ⟨rnd_half_even (100 * x), rfl⟩

lemma rnd_half_even_nonneg {x : ℚ} (h : 0 ≤ x) : 0 ≤ rnd_half_even x := by
  have hf : 0 ≤ qfloor x := by
    unfold qfloor
    exact Int.fdiv_nonneg (Rat.num_nonneg.mpr h) (Int.ofNat_nonneg x.den)
  unfold rnd_half_even
  dsimp only
  split
  · exact hf
  · split
    · omega
    · split
      · exact hf
      · omega

lemma round2_nonneg {x : ℚ} (h : 0 ≤ x) : 0 ≤ round2 x := by
  unfold round2
  have := rnd_half_even_nonneg (by positivity : (0 : ℚ) ≤ 100 * x)
  positivity

/-- C1: `calculate_ros_score` returns `round(base * usage_factor *
matchup_factor, 2)`, where the base is the banked-plus-upside value when both
season figures are positive, else the season projection, else
`fppg * max(remaining_games, 0)`, the usage factor is
`1 + USAGE_WEIGHT * (usage - 0.5)` and the matchup factor is
`1 + SOS_WEIGHT * (0.5 - sos)`, with the configured constant weights. -/
theorem C1_ros_score_formula (p : Player) :
    calculate_ros_score p =
      round2 (spec_base p * (1 + USAGE_WEIGHT * (p.usage - 0.5)) *
        (1 + SOS_WEIGHT * (0.5 - p.sos))) := by
  unfold calculate_ros_score compute_matchup_factor spec_base
  by_cases h1 : 0 < p.projected_season <;> by_cases h2 : 0 < p.season_points <;>
    simp [h1, h2]

/-- C6: the tiering function returns the lowest label for a non-positive
total and otherwise buckets the percentile `(index+1)/total` at the 0.10 /
0.30 / 0.60 / 0.85 cutoffs into the labels S/A/B/C/D; on a pool of exactly
10 ranked players the first gets "S" and the tenth gets "D". -/
theorem C6_tier_for_rank_spec :
    (∀ index total : ℤ, tier_for_rank index total = tier_spec index total) ∧
      tier_for_rank 0 10 = "S" ∧ tier_for_rank 9 10 = "D" :=
  ⟨fun _ _ => rfl, by decide, by decide⟩

/-- C8 counterexample: the first static default player (`p1`,
`fppg=18.5, remaining_games=7, usage=0.30, sos=0.5`) scores 124.32 under the
program's score function (enhanced formula, `USAGE_WEIGHT = 0.20`,
`SOS_WEIGHT = 0.15`), not the 141.16 the claim states. -/
theorem C8_counterexample :
    (DEFAULT_PLAYERS.map calculate_ros_score).head? = some 124.32 ∧
      (124.32 : ℚ) ≠ 141.16 := by
  constructor
  · decide
  · decide

/-- C8 amended: for the static default player `p1` the program's score
function returns 124.32 (the enhanced formula with the configured
`USAGE_WEIGHT = 0.20` and `SOS_WEIGHT = 0.15`), to 2 decimal places. -/
theorem C8_default_p1_score :
    (DEFAULT_PLAYERS.map calculate_ros_score).head? = some 124.32 := by
  decide

end RatEvaluation

lemma filterMap_eq_filterMap_filter {α β : Type} (f : α → Option β) :
    ∀ l : List α, l.filterMap f = (l.filter (fun a => (f a).isSome)).filterMap f
  | [] => rfl
  | a :: l => by
    by_cases h : (f a).isSome
    · obtain ⟨b, hb⟩ := Option.isSome_iff_exists.mp h
      simp [List.filterMap_cons, List.filter_cons, h, hb,
        filterMap_eq_filterMap_filter f l]
    · rw [Option.not_isSome_iff_eq_none] at h
      simp [List.filterMap_cons, List.filter_cons, h,
        filterMap_eq_filterMap_filter f l]

section TradeClaims

attribute [local semireducible] Rat.mul Rat.sub Rat.add Rat.inv Rat.ofScientific

lemma trade_side_total_int (pool : List Player) (ids : List String) :
    ∃ k : ℤ, trade_side_total pool ids = (k : ℚ) / 100 :=
  round2_eq_intCast_div _

/-- C7: in `analyze_trade`, ids absent from the pool index are silently
skipped (a side's total only depends on the ids the index resolves), a side
none of whose ids resolve has total 0, and `analyze_trade([], [])` returns
zero totals, zero delta and the "Very even trade" verdict. -/
theorem C7_trade_unknown_ids (pool : List Player) (ids aIds bIds : List String)
    (h : ∀ i ∈ ids, index_lookup pool i = none) :
    trade_side_total pool aIds =
      trade_side_total pool (aIds.filter (fun i => (index_lookup pool i).isSome)) ∧
    trade_side_total pool ids = 0 ∧
    analyze_trade pool [] [] =
      { team_a_total := 0, team_b_total := 0, delta_a := 0,
        verdict := "Very even trade" } ∧
    (analyze_trade pool aIds bIds).team_a_total = trade_side_total pool aIds ∧
    (analyze_trade pool aIds bIds).team_b_total = trade_side_total pool bIds := by
  have hzero : trade_side_total pool ids = 0 := by
    have hnil : ids.filterMap (index_lookup pool) = [] := by
      rw [List.filterMap_eq_nil_iff]
      exact h
    unfold trade_side_total
    rw [hnil]
    simpa using round2_zero
  have hempty : trade_side_total pool ([] : List String) = 0 := by
    unfold trade_side_total
    simpa using round2_zero
  refine ⟨?_, hzero, ?_, rfl, rfl⟩
  · unfold trade_side_total
    rw [filterMap_eq_filterMap_filter (index_lookup pool) aIds]
  · have h1 : (analyze_trade pool [] []).team_a_total = 0 := hempty
    have h2 : (analyze_trade pool [] []).team_b_total = 0 := hempty
    have h3 : (analyze_trade pool [] []).delta_a =
        round2 (trade_side_total pool [] - trade_side_total pool []) := rfl
    have h4 : (analyze_trade pool [] []).delta_a = 0 := by
      rw [h3, hempty, sub_zero, round2_zero]
    have h5 : (analyze_trade pool [] []).verdict =
        if |(analyze_trade pool [] []).delta_a| < 5 then "Very even trade"
        else if 0 < (analyze_trade pool [] []).delta_a then "Good for Team A"
        else "Good for Team B" := rfl
    have h6 : (analyze_trade pool [] []).verdict = "Very even trade" := by
      rw [h5, h4]
      norm_num
    cases hta : analyze_trade pool [] []
    simp only [hta] at h1 h2 h4 h6
    simp [h1, h2, h4, h6]

/-- C7 witness: instantiated at the static default pool, with the unknown
id "ghost" and sides ["ghost", "p1"] / ["p2"]. -/
theorem C7_trade_unknown_ids_witness :
    (∀ i ∈ (["ghost"] : List String), index_lookup DEFAULT_PLAYERS i = none) ∧
    (trade_side_total DEFAULT_PLAYERS ["ghost", "p1"] =
      trade_side_total DEFAULT_PLAYERS
        ((["ghost", "p1"] : List String).filter
          (fun i => (index_lookup DEFAULT_PLAYERS i).isSome)) ∧
     trade_side_total DEFAULT_PLAYERS ["ghost"] = 0 ∧
     analyze_trade DEFAULT_PLAYERS [] [] =
       { team_a_total := 0, team_b_total := 0, delta_a := 0,
         verdict := "Very even trade" } ∧
     (analyze_trade DEFAULT_PLAYERS ["ghost", "p1"] ["p2"]).team_a_total =
       trade_side_total DEFAULT_PLAYERS ["ghost", "p1"] ∧
     (analyze_trade DEFAULT_PLAYERS ["ghost", "p1"] ["p2"]).team_b_total =
       trade_side_total DEFAULT_PLAYERS ["p2"]) :=
  ⟨by decide,
   C7_trade_unknown_ids DEFAULT_PLAYERS ["ghost"] ["ghost", "p1"] ["p2"] (by decide)⟩

/-- C9: swapping the two sides of `analyze_trade` swaps the two side totals
and negates the delta. -/
theorem C9_trade_swap_sides (pool : List Player) (A B : List String) :
    (analyze_trade pool B A).team_a_total = (analyze_trade pool A B).team_b_total ∧
    (analyze_trade pool B A).team_b_total = (analyze_trade pool A B).team_a_total ∧
    (analyze_trade pool B A).delta_a = -(analyze_trade pool A B).delta_a := by
  obtain ⟨m, hm⟩ := trade_side_total_int pool A
  obtain ⟨n, hn⟩ := trade_side_total_int pool B
  refine ⟨rfl, rfl, ?_⟩
  have hBA : (analyze_trade pool B A).delta_a =
      round2 (trade_side_total pool A - trade_side_total pool B) := rfl
  have hAB : (analyze_trade pool A B).delta_a =
      round2 (trade_side_total pool B - trade_side_total pool A) := rfl
  have e1 : trade_side_total pool A - trade_side_total pool B =
      ((m - n : ℤ) : ℚ) / 100 := by
    rw [hm, hn]
    push_cast
    ring
  have e2 : trade_side_total pool B - trade_side_total pool A =
      ((n - m : ℤ) : ℚ) / 100 := by
    rw [hm, hn]
    push_cast
    ring
  rw [hBA, hAB, e1, e2, round2_intCast_div_100, round2_intCast_div_100]
  push_cast
  ring

lemma verdict_classification (δ : ℚ) :
    ((if |δ| < 5 then "Very even trade"
      else if 0 < δ then "Good for Team A" else "Good for Team B") =
        "Very even trade" ↔ |δ| < 5) ∧
    ((if |δ| < 5 then "Very even trade"
      else if 0 < δ then "Good for Team A" else "Good for Team B") =
        "Good for Team A" ↔ 5 ≤ δ) ∧
    ((if |δ| < 5 then "Very even trade"
      else if 0 < δ then "Good for Team A" else "Good for Team B") =
        "Good for Team B" ↔ δ ≤ -5) := by
  by_cases h1 : |δ| < 5
  · have h1' := abs_lt.mp h1
    have h2 : ¬ (5 : ℚ) ≤ δ := by linarith [h1'.2]
    have h3 : ¬ δ ≤ (-5 : ℚ) := by linarith [h1'.1]
    refine ⟨by simp [h1], ?_, ?_⟩
    · rw [if_pos h1]
      exact iff_of_false (by decide) h2
    · rw [if_pos h1]
      exact iff_of_false (by decide) h3
  · have habs : (5 : ℚ) ≤ |δ| := le_of_not_lt h1
    by_cases h4 : 0 < δ
    · have h5 : (5 : ℚ) ≤ δ := by
        rwa [abs_of_pos h4] at habs
      have h6 : ¬ δ ≤ (-5 : ℚ) := by linarith
      refine ⟨?_, ?_, ?_⟩
      · rw [if_neg h1, if_pos h4]
        exact iff_of_false (by decide) h1
      · rw [if_neg h1, if_pos h4]
        exact iff_of_true rfl h5
      · rw [if_neg h1, if_pos h4]
        exact iff_of_false (by decide) h6
    · have h5 : δ ≤ (-5 : ℚ) := by
        rw [abs_of_nonpos (le_of_not_lt h4)] at habs
        linarith
      have h6 : ¬ (5 : ℚ) ≤ δ := by linarith
      have h7 : ¬ |δ| < 5 := h1
      refine ⟨?_, ?_, ?_⟩
      · rw [if_neg h1, if_neg h4]
        exact iff_of_false (by decide) h7
      · rw [if_neg h1, if_neg h4]
        exact iff_of_false (by decide) h6
      · rw [if_neg h1, if_neg h4]
        exact iff_of_true rfl h5

/-- C10: `analyze_trade` computes each side total with the shared score
function over the resolved ids (rounded to 2 decimals per side), sets
`delta_a = team_b_total - team_a_total`, and classifies the verdict as
"Very even trade" iff `|delta_a| < 5`, "Good for Team A" iff
`delta_a >= 5`, and "Good for Team B" iff `delta_a <= -5`. -/
theorem C10_trade_delta_and_verdict (pool : List Player) (A B : List String) :
    (analyze_trade pool A B).team_a_total = trade_side_total pool A ∧
    (analyze_trade pool A B).team_b_total = trade_side_total pool B ∧
    (analyze_trade pool A B).delta_a =
      (analyze_trade pool A B).team_b_total -
        (analyze_trade pool A B).team_a_total ∧
    ((analyze_trade pool A B).verdict = "Very even trade" ↔
      |(analyze_trade pool A B).delta_a| < 5) ∧
    ((analyze_trade pool A B).verdict = "Good for Team A" ↔
      5 ≤ (analyze_trade pool A B).delta_a) ∧
    ((analyze_trade pool A B).verdict = "Good for Team B" ↔
      (analyze_trade pool A B).delta_a ≤ -5) := by
  obtain ⟨m, hm⟩ := trade_side_total_int pool A
  obtain ⟨n, hn⟩ := trade_side_total_int pool B
  have hAB : (analyze_trade pool A B).delta_a =
      round2 (trade_side_total pool B - trade_side_total pool A) := rfl
  have e : trade_side_total pool B - trade_side_total pool A =
      ((n - m : ℤ) : ℚ) / 100 := by
    rw [hm, hn]
    push_cast
    ring
  have hdelta : (analyze_trade pool A B).delta_a =
      trade_side_total pool B - trade_side_total pool A := by
    rw [hAB, e, round2_intCast_div_100]
  have hv : (analyze_trade pool A B).verdict =
      if |(analyze_trade pool A B).delta_a| < 5 then "Very even trade"
      else if 0 < (analyze_trade pool A B).delta_a then "Good for Team A"
      else "Good for Team B" := rfl
  obtain ⟨w1, w2, w3⟩ := verdict_classification (analyze_trade pool A B).delta_a
  exact ⟨rfl, rfl, hdelta, hv ▸ w1, hv ▸ w2, hv ▸ w3⟩

end TradeClaims

lemma toDigitsCore_length_le (b : ℕ) :
    ∀ (fuel n : ℕ) (ds : List Char),
      ds.length ≤ (Nat.toDigitsCore b fuel n ds).length
  | 0, _, _ => le_refl _
  | fuel + 1, n, ds => by
    by_cases h : n / b = 0
    · simp [Nat.toDigitsCore, h]
    · simp only [Nat.toDigitsCore]
      rw [if_neg h]
      calc ds.length ≤ (Nat.digitChar (n % b) :: ds).length := by simp
        _ ≤ _ := toDigitsCore_length_le b fuel (n / b) _

lemma toDigits_ne_nil (b n : ℕ) : Nat.toDigits b n ≠ [] := by
  unfold Nat.toDigits
  by_cases h : n / b = 0
  · simp [Nat.toDigitsCore, h]
  · simp only [Nat.toDigitsCore]
    rw [if_neg h]
    intro hnil
    have h2 := toDigitsCore_length_le b n (n / b) [Nat.digitChar (n % b)]
    rw [hnil] at h2
    simp at h2

lemma nat_repr_ne_empty (n : ℕ) : Nat.repr n ≠ "" := by
  unfold Nat.repr
  intro hs
  apply toDigits_ne_nil 10 n
  have := congrArg String.data hs
  simpa [List.asString] using this

lemma int_str_ne_empty (n : ℤ) : int_str n ≠ "" := by
  cases n with
  | ofNat m => exact nat_repr_ne_empty m
  | negSucc m =>
    intro hs
    have := congrArg String.data hs
    simp [int_str, String.data_append] at this

lemma position_map_get_mem (i : ℤ) :
    position_map_get i ∈
      (["QB", "RB", "WR", "TE", "K", "D/ST", "FLEX"] : List String) := by
  unfold position_map_get
  split_ifs <;> simp

section IngestClaims

attribute [local semireducible] Rat.mul Rat.sub Rat.add Rat.inv Rat.ofScientific

lemma extract_basic_info_fields (raw : RawRecord) (bp : Player)
    (h : extract_basic_info raw = some bp) :
    bp.id ≠ "" ∧ bp.name ≠ "" ∧
      bp.position ∈ (["QB", "RB", "WR", "TE", "K", "D/ST", "FLEX"] : List String) := by
  unfold extract_basic_info at h
  cases hfn : pyStrOr (infoOf raw).fullName (infoOf raw).name with
  | none =>
    simp only [hfn] at h
    exact Option.noConfusion h
  | some fn =>
    simp only [hfn] at h
    split_ifs at h with hfe
    rw [Option.some.injEq] at h
    subst h
    refine ⟨?_, hfe, ?_⟩
    · dsimp only
      cases h1 : truthyInt raw.id with
      | some n =>
        simp only [h1]
        exact int_str_ne_empty n
      | none =>
        simp only [h1]
        cases h2 : truthyInt (infoOf raw).id with
        | some n =>
          simp only [h2]
          exact int_str_ne_empty n
        | none =>
          simp only [h2]
          exact hfe
    · dsimp only
      cases h3 : (infoOf raw).defaultPositionId with
      | some i =>
        simp only [h3]
        exact position_map_get_mem i
      | none =>
        simp only [h3]
        simp

/-- C3 counterexample: a raw ESPN record whose position code maps to
kicker (`defaultPositionId = 5`) on a real team with positive ownership is
NOT filtered out: it enters the pool with position `"K"`, which is outside
the fixed enumeration `{QB, RB, WR, TE}` the claim states. -/
theorem C3_counterexample :
    (load_players_from_espn (some [kicker_raw]) (fun _ => none) 0 1).map
        Player.position = ["K"] ∧
      "K" ∉ (["QB", "RB", "WR", "TE"] : List String) := by
  constructor
  · decide
  · decide

/-- C3 amended: every player admitted into the pool by ingestion has a
non-empty id, a non-empty name, and a position drawn from the position
map's full range `{QB, RB, WR, TE, K, D/ST, FLEX}`; kicker, defense and
unknown position codes are NOT filtered out (the inclusion filters check
only name, team and ownership). -/
theorem C3_admitted_players_wellformed (rawOpt : Option (List RawRecord))
    (matchups : String → Option String) (minOwned : ℚ) (current_week : ℤ)
    (p : Player)
    (h : p ∈ load_players_from_espn rawOpt matchups minOwned current_week) :
    p.id ≠ "" ∧ p.name ≠ "" ∧
      p.position ∈ (["QB", "RB", "WR", "TE", "K", "D/ST", "FLEX"] : List String) := by
  cases rawOpt with
  | none => simp [load_players_from_espn] at h
  | some raws =>
    unfold load_players_from_espn at h
    rw [List.mem_filterMap] at h
    obtain ⟨raw, _, hsome⟩ := h
    split at hsome
    · exact absurd hsome (by simp)
    · rename_i bp hext
      split_ifs at hsome with hfa
      dsimp only at hsome
      split_ifs at hsome with hpo
      rw [Option.some.injEq] at hsome
      have hfields := extract_basic_info_fields raw bp hext
      rw [← hsome]
      exact hfields

/-- C3 witness: the kicker record is admitted, and the amended invariants
hold for the admitted player. -/
theorem C3_admitted_players_wellformed_witness :
    kicker_player ∈ load_players_from_espn (some [kicker_raw]) (fun _ => none) 0 1 ∧
      (kicker_player.id ≠ "" ∧ kicker_player.name ≠ "" ∧
        kicker_player.position ∈
          (["QB", "RB", "WR", "TE", "K", "D/ST", "FLEX"] : List String)) :=
  ⟨by decide,
   C3_admitted_players_wellformed (some [kicker_raw]) (fun _ => none) 0 1
     kicker_player (by decide)⟩

/-- C2: if the provider fetch fails (`none` payload) or ingestion yields
zero usable records, pool initialization returns exactly the static
`DEFAULT_PLAYERS` list, which is non-empty; the resulting pool is
non-empty and `list_players(None)` answers with exactly that pool. -/
theorem C2_fallback_to_default_pool (rawOpt : Option (List RawRecord))
    (matchups : String → Option String) (minOwned : ℚ) (current_week : ℤ)
    (h : rawOpt = none ∨
      load_players_from_espn rawOpt matchups minOwned current_week = []) :
    init_player_pool rawOpt matchups minOwned current_week = DEFAULT_PLAYERS ∧
    DEFAULT_PLAYERS ≠ [] ∧
    get_players_by_position (init_player_pool rawOpt matchups minOwned current_week)
      none = init_player_pool rawOpt matchups minOwned current_week ∧
    init_player_pool rawOpt matchups minOwned current_week ≠ [] := by
  have hload : load_players_from_espn rawOpt matchups minOwned current_week = [] := by
    rcases h with h | h
    · subst h
      rfl
    · exact h
  have hinit : init_player_pool rawOpt matchups minOwned current_week =
      DEFAULT_PLAYERS := by
    unfold init_player_pool
    rw [hload]
    rfl
  refine ⟨hinit, by decide, rfl, ?_⟩
  rw [hinit]
  decide

/-- C2 witness: instantiated at a failed fetch (`none` raw payload). -/
theorem C2_fallback_to_default_pool_witness :
    ((none : Option (List RawRecord)) = none ∨
      load_players_from_espn none (fun _ => none) 0 1 = []) ∧
    (init_player_pool none (fun _ => none) 0 1 = DEFAULT_PLAYERS ∧
     DEFAULT_PLAYERS ≠ [] ∧
     get_players_by_position (init_player_pool none (fun _ => none) 0 1) none =
       init_player_pool none (fun _ => none) 0 1 ∧
     init_player_pool none (fun _ => none) 0 1 ≠ []) :=
  ⟨Or.inl rfl, C2_fallback_to_default_pool none (fun _ => none) 0 1 (Or.inl rfl)⟩

end IngestClaims

section NonNegClaim

attribute [local semireducible] Rat.mul Rat.sub Rat.add Rat.inv Rat.ofScientific

/-- C4 counterexample: `high_sos_player` has all of `fppg`, `usage`, `sos`,
`remaining_games`, `season_points`, `projected_season` non-negative, yet its
score is negative (`sos = 10` drives the matchup factor below zero). -/
theorem C4_counterexample :
    0 ≤ high_sos_player.fppg ∧ 0 ≤ high_sos_player.usage ∧
    0 ≤ high_sos_player.sos ∧ 0 ≤ high_sos_player.remaining_games ∧
    0 ≤ high_sos_player.season_points ∧ 0 ≤ high_sos_player.projected_season ∧
    calculate_ros_score high_sos_player < 0 := by
  refine ⟨by decide, by decide, by decide, by decide, by decide, by decide, ?_⟩
  decide

/-- C4 amended: for every player whose numeric fields `fppg`, `usage`,
`sos`, `remaining_games`, `season_points`, `projected_season` are all
non-negative and whose `sos` lies within its documented 0-1 scale,
`calculate_ros_score` is non-negative. -/
theorem C4_score_nonneg (p : Player) (hf : 0 ≤ p.fppg) (hu : 0 ≤ p.usage)
    (hs0 : 0 ≤ p.sos) (hs1 : p.sos ≤ 1) (hr : 0 ≤ p.remaining_games)
    (hsp : 0 ≤ p.season_points) (hps : 0 ≤ p.projected_season) :
    0 ≤ calculate_ros_score p := by
  have hUW : USAGE_WEIGHT = 1/5 := by norm_num [USAGE_WEIGHT]
  have hSW : SOS_WEIGHT = 3/20 := by norm_num [SOS_WEIGHT]
  unfold calculate_ros_score compute_matchup_factor
  apply round2_nonneg
  have husage : (0 : ℚ) ≤ 1 + USAGE_WEIGHT * (p.usage - 0.5) := by
    rw [hUW]
    norm_num
    linarith
  have hmatch : (0 : ℚ) ≤ 1 + SOS_WEIGHT * (0.5 - p.sos) := by
    rw [hSW]
    norm_num
    linarith
  have hbase : (0 : ℚ) ≤
      (if 0 < p.projected_season ∧ 0 < p.season_points then
        p.season_points + max (p.projected_season - p.season_points) 0
      else if 0 < p.projected_season then p.projected_season
      else p.fppg * ((max p.remaining_games 0 : ℤ) : ℚ)) := by
    split_ifs with h1 h2
    · exact add_nonneg hsp (le_max_right _ _)
    · exact hps
    · apply mul_nonneg hf
      have : (0 : ℤ) ≤ max p.remaining_games 0 := le_max_right _ _
      exact_mod_cast this
  exact mul_nonneg (mul_nonneg hbase husage) hmatch

/-- C4 witness: the amended non-negativity applied to the admitted kicker
player (all fields non-negative, `sos = 0.5`). -/
theorem C4_score_nonneg_witness :
    (0 ≤ kicker_player.fppg ∧ 0 ≤ kicker_player.usage ∧
     0 ≤ kicker_player.sos ∧ kicker_player.sos ≤ 1 ∧
     0 ≤ kicker_player.remaining_games ∧ 0 ≤ kicker_player.season_points ∧
     0 ≤ kicker_player.projected_season) ∧
    0 ≤ calculate_ros_score kicker_player :=
  ⟨⟨by decide, by decide, by decide, by decide, by decide, by decide, by decide⟩,
   C4_score_nonneg kicker_player (by decide) (by decide) (by decide) (by decide)
     (by decide) (by decide) (by decide)⟩

end NonNegClaim

section RankingClaim

lemma pairwise_enumFrom {α : Type} {S : α → α → Prop} :
    ∀ (l : List α) (n : ℕ), l.Pairwise S →
      (List.enumFrom n l).Pairwise (fun x y => S x.2 y.2)
  | [], _, _ => List.Pairwise.nil
  | a :: l, n, h => by
    rw [List.enumFrom_cons]
    rw [List.pairwise_cons] at h ⊢
    refine ⟨?_, pairwise_enumFrom l (n + 1) h.2⟩
    intro y hy
    exact h.1 y.2 (List.snd_mem_of_mem_enumFrom hy)

lemma assign_tiers_map_player (l : List ROSResult) :
    (assign_tiers l).map (fun r => r.player) = l.map (fun r => r.player) := by
  unfold assign_tiers
  rw [List.map_map]
  have key : ∀ (n : ℕ),
      (List.enumFrom n l).map
        ((fun r => r.player) ∘
          (fun x => { x.2 with tier := tier_for_rank (x.1 : ℤ) (l.length : ℤ) })) =
        l.map (fun r => r.player) := by
    generalize l.length = total
    induction l with
    | nil => intro n; rfl
    | cons a t ih =>
      intro n
      rw [List.enumFrom_cons, List.map_cons, List.map_cons, ih]
      rfl
  exact key 0

lemma assign_tiers_filter_map_player (l : List ROSResult) (s : ℚ) :
    ((assign_tiers l).filter (fun r => r.ros_score = s)).map (fun r => r.player) =
      (l.filter (fun r => r.ros_score = s)).map (fun r => r.player) := by
  unfold assign_tiers
  have key : ∀ (total : ℤ) (n : ℕ),
      (((List.enumFrom n l).map
          (fun x => { x.2 with tier := tier_for_rank (x.1 : ℤ) total })).filter
        (fun r => r.ros_score = s)).map (fun r => r.player) =
        (l.filter (fun r => r.ros_score = s)).map (fun r => r.player) := by
    intro total
    induction l with
    | nil => intro n; rfl
    | cons a t ih =>
      intro n
      rw [List.enumFrom_cons, List.map_cons]
      dsimp only
      rw [List.filter_cons, List.filter_cons]
      by_cases hs : a.ros_score = s
      · simp only [List.map_cons]
        simp [hs]
        exact ih (n + 1)
      · simp [hs]
        exact ih (n + 1)
  exact key (l.length : ℤ) 0

lemma assign_tiers_pairwise (l : List ROSResult)
    (h : l.Pairwise (fun a b => b.ros_score ≤ a.ros_score)) :
    (assign_tiers l).Pairwise (fun a b => b.ros_score ≤ a.ros_score) := by
  unfold assign_tiers
  rw [List.pairwise_map]
  exact pairwise_enumFrom l 0 h

lemma ros_le_trans : ∀ (a b c : ROSResult), ros_le a b → ros_le b c → ros_le a c := by
  intro a b c hab hbc
  simp only [ros_le, decide_eq_true_eq] at hab hbc ⊢
  exact le_trans hbc hab

lemma ros_le_total : ∀ (a b : ROSResult), ros_le a b || ros_le b a := by
  intro a b
  simp only [ros_le]
  rw [Bool.or_eq_true, decide_eq_true_eq, decide_eq_true_eq]
  exact le_total b.ros_score a.ros_score

/-- C5: for every position filter, `get_ros_rankings` returns a sequence
sorted non-increasing by `ros_score`, in which every player of the filtered
pool appears exactly once (the ranked players are a permutation of the
filtered pool), and players with equal scores keep their original pool
order (stability of the sort). -/
theorem C5_rankings_sorted_complete_stable (pool : List Player)
    (pos : Option String) :
    ((get_ros_rankings pool pos).map (fun r => r.player)).Perm
        (get_players_by_position pool pos) ∧
      (get_ros_rankings pool pos).Pairwise
        (fun a b => b.ros_score ≤ a.ros_score) ∧
      ∀ s : ℚ,
        ((get_ros_rankings pool pos).filter (fun r => r.ros_score = s)).map
            (fun r => r.player) =
          (get_players_by_position pool pos).filter
            (fun q => calculate_ros_score q = s) := by
  have hrank : get_ros_rankings pool pos =
      assign_tiers (List.mergeSort
        ((get_players_by_position pool pos).map to_ros_result) ros_le) := rfl
  set fp := get_players_by_position pool pos with hfp
  set L := fp.map to_ros_result with hL
  set M := List.mergeSort L ros_le with hM
  have hperm : M.Perm L := List.mergeSort_perm L ros_le
  refine ⟨?_, ?_, ?_⟩
  · rw [hrank, assign_tiers_map_player]
    have h1 : (M.map (fun r => r.player)).Perm (L.map (fun r => r.player)) :=
      hperm.map _
    have h2 : L.map (fun r => r.player) = fp := by
      rw [hL, List.map_map]
      have hcomp : ((fun r : ROSResult => r.player) ∘ to_ros_result) =
          (id : Player → Player) := rfl
      rw [hcomp, List.map_id]
    rw [← h2]
    exact h1
  · rw [hrank]
    apply assign_tiers_pairwise
    have hs := List.sorted_mergeSort ros_le_trans ros_le_total L
    exact hs.imp (fun hab => by
      simpa only [ros_le, decide_eq_true_eq] using hab)
  · intro s
    rw [hrank, assign_tiers_filter_map_player]
    have hfilter_eq : M.filter (fun r => r.ros_score = s) =
        L.filter (fun r => r.ros_score = s) := by
      have hpw : (L.filter (fun r => r.ros_score = s)).Pairwise
          (fun a b => ros_le a b) := by
        apply List.pairwise_of_forall_mem_list
        intro a ha b hb
        have ha' := (List.mem_filter.mp ha).2
        have hb' := (List.mem_filter.mp hb).2
        rw [decide_eq_true_eq] at ha' hb'
        simp only [ros_le, decide_eq_true_eq, ha', hb']
        exact le_refl s
      have hsub : List.Sublist (L.filter (fun r => r.ros_score = s)) M :=
        List.sublist_mergeSort ros_le_trans ros_le_total hpw (List.filter_sublist L)
      have hsub2 := hsub.filter (fun r => decide (r.ros_score = s))
      have hself : (L.filter (fun r => r.ros_score = s)).filter
          (fun r => r.ros_score = s) = L.filter (fun r => r.ros_score = s) :=
        List.filter_eq_self.mpr (fun a ha => (List.mem_filter.mp ha).2)
      rw [hself] at hsub2
      have hpermf : (M.filter (fun r => r.ros_score = s)).Perm
          (L.filter (fun r => r.ros_score = s)) :=
        hperm.filter _
      exact (hsub2.eq_of_length hpermf.length_eq.symm).symm
    rw [hfilter_eq, hL, List.filter_map, List.map_map]
    have hcomp1 : ((fun r : ROSResult => decide (r.ros_score = s)) ∘ to_ros_result) =
        (fun q : Player => decide (calculate_ros_score q = s)) := rfl
    have hcomp2 : ((fun r : ROSResult => r.player) ∘ to_ros_result) =
        (id : Player → Player) := rfl
    rw [hcomp1, hcomp2, List.map_id]

end RankingClaim
